import Mathlib

/-!
Verification development for the Daily_ngram dashboard (`src/app.py`).

The development shallowly embeds the time-series retrieval-and-normalization
pipeline of `app.py`:

* calendar dates are integers counting days since 1970-01-01 (the unit in
  which pandas `Timestamp`s at midnight are compared; `pandas.Timestamp
  .dayofweek` has Monday = 0, and day 0, 1970-01-01, was a Thursday = 3);
* a `DataFrame` with a daily `DatetimeIndex` and one column per word is a
  list of rows `(date, cells)`; a cell is `Option ℚ`, `none` standing for a
  missing float value (`NaN` / `pd.NA`);
* machine floats are modelled by `ℚ`.  The only non-finite values the
  pipeline can produce are the `NaN`s handled by `rolling`/`fillna`
  (modelled by `none`) and the result of the ratio division when the
  reference total is `0` (`0/0 = NaN`, `c/0 = ±inf` for `c ≠ 0`); both
  division outcomes are conflated into `none` here, which is exact for the
  `NaN` case — the `±inf` case is excluded by the hypotheses of every
  claim that touches the division;
* Python exceptions are modelled by `Except PErr`; `app.py` only ever
  catches `AttributeError` (the error signature of the dhlab adapter
  returning a non-DataFrame), so every other exception kind propagates.

The corpus adapter `dhlab.api.ngram_news` is an external collaborator and
enters as an `AdapterOutcome`: it produced a frame, produced a non-frame
value (so the first attribute access raises `AttributeError`), or raised.
-/

/-- Constant `max_days = 7400` (src/app.py line 17). -/
def max_days : ℤ := 7400

/-- Constant `min_days = 3` (src/app.py line 18). -/
def min_days : ℤ := 3

/-- The pinned timestamp `pd.Timestamp("20210701")` of `adjust`
(src/app.py line 76), as days since 1970-01-01: 2021-07-01 is epoch
day 18809. -/
def d20210701 : ℤ := 18809

/-- The weekday `pandas.Timestamp.dayofweek` of an epoch-day number: Monday = 0 …
Sunday = 6.  Day 0 (1970-01-01) was a Thursday, i.e. 3. -/
def dayofweek (d : ℤ) : ℤ := (d + 3) % 7

/-- The numpy float→int conversion performed by `astype(int)`
(src/app.py line 84): truncation toward zero. -/
def truncQ (q : ℚ) : ℤ := if 0 ≤ q then ⌊q⌋ else ⌈q⌉

/-- One row of a pandas DataFrame with a daily `DatetimeIndex`: the date
and the list of per-word cells; a cell `none` is a missing value
(`NaN`/`pd.NA`). -/
abbrev Rows := List (ℤ × List (Option ℚ))

/-- A pandas DataFrame as produced by the fetch/normalize steps: column
names (the words) and the indexed rows. -/
structure DF where
  names : List String
  rows : Rows
deriving DecidableEq

/-- A DataFrame whose cells have been converted by `astype(int)`
(the output type of `adjust`). -/
structure DFZ where
  names : List String
  rows : List (ℤ × List ℤ)
deriving DecidableEq

/-- The empty frame `pd.DataFrame()` returned on a caught failure. -/
def emptyDF : DF := ⟨[], []⟩

/-- Cell accessor for an integer frame, `none` when out of range. -/
def cellZ (d : DFZ) (i j : ℕ) : Option ℤ :=
  d.rows[i]?.bind (fun r => r.2[j]?)

/-- The kinds of Python exception relevant to the pipeline.
`app.py` catches exactly `attributeError` (lines 51, 67, 82). -/
inductive PErr where
  | attributeError
  | valueError
  | typeError
deriving DecidableEq

/-- Lower bound of the date window of `adjust` (src/app.py line 76):
`s = pd.Timestamp(min(pd.Timestamp("20210701"), ts - pd.Timedelta(days=days + min_days)))`.
Note that the source takes a `min` here, not a `max`. -/
def lowerBound (date days : ℤ) : ℤ := min d20210701 (date - (days + min_days))

/-- Upper bound of the date window of `adjust` (src/app.py line 77):
`e = pd.Timestamp(min(pd.Timestamp.today(), ts + td))` with
`td = pd.Timedelta(days=days - 1)`.  `pd.Timestamp.today()` is an ambient
input of the Python code; it is the explicit parameter `today` here. -/
def upperBound (today date days : ℤ) : ℤ := min today (date + (days - 1))

/-- Lines 78–79 of src/app.py:
`mask = (df.index >= s) & (df.index <= e)` followed by `res = res.loc[mask]`. -/
def keptRows (rows : Rows) (s e : ℤ) : Rows :=
  rows.filter (fun r => decide (s ≤ r.1) && decide (r.1 ≤ e))

/-- Line 80 of src/app.py: `res.loc[res.index.dayofweek == 6] = pd.NA`
sets every cell of a Sunday row to a missing value. -/
def maskSunday (rows : Rows) : Rows :=
  rows.map (fun r => if dayofweek r.1 = 6 then (r.1, r.2.map (fun _ => (none : Option ℚ))) else r)

/-- Column `j` of a row list, as the list of its cells (missing cells of
ragged rows read as `none`; frames built by the pipeline are rectangular). -/
def colOf (rows : Rows) (j : ℕ) : List (Option ℚ) := rows.map (fun r => r.2.getD j none)

/-- The positional slice `[i+1-w, i]` of a column: the trailing window of
size `w` ending at row `i`, as used by `rolling(window=w)`. -/
def windowSlice (w i : ℕ) (xs : List (Option ℚ)) : List (Option ℚ) :=
  (xs.take (i + 1)).drop (i + 1 - w)

/-- Mean of the valid observations of a window; `none` when there are
fewer than `min_periods=1` valid observations, as for
`rolling(..., min_periods=1).mean()`. -/
def meanOfWindow (vs : List ℚ) : Option ℚ :=
  if vs.isEmpty then none else some (vs.sum / (vs.length : ℚ))

/-- Line 81 of src/app.py: `res = res.rolling(window=smooth, min_periods=1).mean()`.
The rolling window is positional (rows, not calendar days) and is applied
to every column; missing values are skipped. -/
def rollingRows (w : ℕ) (rows : Rows) : Rows :=
  rows.enum.map (fun p =>
    (p.2.1, (List.range p.2.2.length).map (fun j =>
      meanOfWindow ((windowSlice w p.1 (colOf rows j)).filterMap id))))

/-- Line 84 of src/app.py applied to one cell:
`.fillna(0)` then `.astype(int)`. -/
def finishCell (v : Option ℚ) : ℤ := truncQ (v.getD 0)

/-- The function `adjust(df, date, days, smooth)` (src/app.py lines 71–84) for a frame
with a daily `DatetimeIndex`, with the ambient clock reading
`pd.Timestamp.today()` made explicit as `today`.  The `except
AttributeError` branch of the source is unreachable for such frames (it
fires only when the index is not datetime-like, e.g. for the empty frame
round-tripped through JSON, in which case the source also returns an
empty result, as this function does). -/
def adjust (df : DF) (date days : ℤ) (smooth : ℕ) (today : ℤ) : DFZ :=
  let kept := keptRows df.rows (lowerBound date days) (upperBound today date days)
  let rolled := rollingRows smooth (maskSunday kept)
  ⟨df.names, rolled.map (fun r => (r.1, r.2.map finishCell))⟩

/-- The function `adjust` including its exceptional behaviour: pandas refuses
`rolling(window=0, min_periods=1)` with a `ValueError`
(`min_periods 1 must be <= window 0`), and `except AttributeError`
(line 82) does not catch it, so it propagates to the caller. -/
def adjustE (df : DF) (date days : ℤ) (smooth : ℕ) (today : ℤ) : Except PErr DFZ :=
  if smooth = 0 then .error .valueError else .ok (adjust df date days smooth today)

/-- Outcome of a call to the corpus adapter `dhlab.api.ngram_news`, an
external collaborator: it returned a proper DataFrame, it returned a
non-frame value (so the first attribute access on the result raises
`AttributeError`, the failure signature the source relies on), or the
call itself raised. -/
inductive AdapterOutcome where
  | frame (df : DF)
  | nonFrame
  | raised (e : PErr)
deriving DecidableEq

/-- Row-wise sum `.sum(axis=1)` of src/app.py line 48: missing values are
skipped (`skipna`), and an all-missing row sums to `0`. -/
def rowSum (cells : List (Option ℚ)) : ℚ := (cells.filterMap id).sum

/-- The reference series built by `sumword` from the comparison frame:
one total per date. -/
def sumTot (df : DF) : List (ℤ × ℚ) := df.rows.map (fun r => (r.1, rowSum r.2))

/-- Index alignment of the pandas division `res[x] / tot`
(src/app.py line 66): the reference total at a given date, `none` when
the date is absent from the reference index (pandas yields `NaN` there). -/
def lookupTot (tot : List (ℤ × ℚ)) (d : ℤ) : Option ℚ :=
  (tot.find? (fun p => decide (p.1 = d))).map Prod.snd

/-- One cell of the ratio division `res[x] / tot`: missing over anything
is missing, and a zero total yields a non-finite float (`NaN` for a zero
numerator, `±inf` otherwise), modelled as `none` (see the header note). -/
def divCell (t : Option ℚ) (v : Option ℚ) : Option ℚ :=
  match v, t with
  | some x, some tv => if tv = 0 then none else some (x / tv)
  | _, _ => none

/-- Lines 65–66 of src/app.py: `for x in res: res[x] = res[x] / tot`,
dividing every column by the reference totals, aligned by date. -/
def divideDF (df : DF) (tot : List (ℤ × ℚ)) : DF :=
  ⟨df.names, df.rows.map (fun r => (r.1, r.2.map (divCell (lookupTot tot r.1))))⟩

/-- The step `.fillna(0)` of src/app.py line 61 on a whole frame. -/
def fillnaDF (df : DF) : DF :=
  ⟨df.names, df.rows.map (fun r => (r.1, r.2.map (fun v => some (v.getD 0))))⟩

/-- The step `.sort_index()` of src/app.py line 61: stable ascending sort of the
rows by date. -/
def sortIndexDF (df : DF) : DF :=
  ⟨df.names, df.rows.insertionSort (fun a b => a.1 ≤ b.1)⟩

/-- The function `sumword(words, period, title)` (src/app.py lines 43–53): the word
list handed to the adapter is abstracted into the adapter outcome; the
body sums the returned frame row-wise and catches only `AttributeError`
(returning an empty frame, i.e. an empty total list); any other
exception raised by the adapter propagates. -/
def sumwordE (a : AdapterOutcome) : Except PErr (List (ℤ × ℚ)) :=
  match a with
  | .frame df => .ok (sumTot df)
  | .nonFrame => .ok []
  | .raised e => if e = .attributeError then .ok [] else .error e

/-- The function `ngram(word, mid_date, sammenlign, title)` (src/app.py lines 55–69).
The period handed to the adapter (`mid_date ± max_days`) only shapes the
adapter call and is abstracted into the outcome `a`; `refA` is the
outcome of the reference fetch performed by `sumword` when
`sammenlign != ""`.  Only `AttributeError` is caught (line 67); it is the
signature of the adapter returning a non-frame, and yields the empty
frame.  Any other exception — from the main fetch or from inside
`sumword` — propagates. -/
def ngramE (a : AdapterOutcome) (sammenlign : String) (refA : AdapterOutcome) :
    Except PErr DF :=
  match a with
  | .raised e => if e = PErr.attributeError then .ok emptyDF else .error e
  | .nonFrame => .ok emptyDF
  | .frame df =>
    let res := sortIndexDF (fillnaDF df)
    if sammenlign ≠ "" then
      match sumwordE refA with
      | .ok tot => .ok (divideDF res tot)
      | .error e => .error e
    else .ok res

/-- The `data_store` callback `update_data` (src/app.py lines 258–273).
The word splitting/deduplication/cap only shapes the adapter call and is
abstracted into the outcome; the decisive fact is the call site of
line 272, `ngram(allword, mid_date, "", title=avisnavn)`: the comparison
argument is the empty string, so no reference fetch happens (the
reference outcome passed here is an arbitrary placeholder). -/
def update_data (a : AdapterOutcome) : Except PErr DF :=
  ngramE a "" AdapterOutcome.nonFrame

/-- The download component of the `update_chart` callback
(src/app.py lines 288–345): with no stored data the callback returns no
download (line 307); otherwise it runs `adjust` on the stored frame and
returns a spreadsheet buffer exactly when `n_clicks > 0` (line 342).
The buffer `to_excel(df_for_print)` is modelled by the frame it
serializes. -/
def update_chartE (dataJson : Option DF) (date days : ℤ) (smooth : ℕ)
    (n_clicks : ℕ) (today : ℤ) : Except PErr (Option DFZ) :=
  match dataJson with
  | none => .ok none
  | some df =>
    match adjustE df date days smooth today with
    | .error e => .error e
    | .ok d => if 0 < n_clicks then .ok (some d) else .ok none

/-- The heap state of `adjust` while it runs: the object the parameter
`df` refers to and the object the local `res` refers to. -/
abbrev PySt := DF × DF

/-- Line 72 of src/app.py, `res = df.copy()`: pandas `copy()` is a deep
copy, so `res` becomes an independent object with the same contents. -/
def lineCopy (st : PySt) : PySt := (st.1, st.1)

/-- Boolean mask application of `res.loc[mask]`: positional selection of
the rows of `res` by a mask list. -/
def applyMask (mask : List Bool) (rows : Rows) : Rows :=
  ((mask.zip rows).filter (fun p => p.1)).map Prod.snd

/-- Lines 78–79 of src/app.py as a state step: the mask is computed from
`df.index` and applied to `res`; only `res` is rebound. -/
def lineSlice (s e : ℤ) (st : PySt) : PySt :=
  (st.1, ⟨st.2.names,
    applyMask (st.1.rows.map (fun r => decide (s ≤ r.1) && decide (r.1 ≤ e))) st.2.rows⟩)

/-- Line 80 of src/app.py as a state step: the in-place write
`res.loc[...] = pd.NA` mutates only the object `res` refers to. -/
def lineSunday (st : PySt) : PySt := (st.1, ⟨st.2.names, maskSunday st.2.rows⟩)

/-- Line 81 of src/app.py as a state step: `res` is rebound to the rolled
frame; `df` is untouched. -/
def lineRolling (w : ℕ) (st : PySt) : PySt := (st.1, ⟨st.2.names, rollingRows w st.2.rows⟩)

/-- The body of `adjust` (smooth ≥ 1 path) as explicit state passing over
the two heap objects, returning the object `df` still refers to after the
call together with the returned value (line 84 builds a fresh frame). -/
def adjustProgram (df : DF) (date days : ℤ) (smooth : ℕ) (today : ℤ) : DF × DFZ :=
  let st1 := lineCopy (df, df)
  let st2 := lineSlice (lowerBound date days) (upperBound today date days) st1
  let st3 := lineSunday st2
  let st4 := lineRolling smooth st3
  (st4.1, ⟨st4.2.names, st4.2.rows.map (fun r => (r.1, r.2.map finishCell))⟩)

/-- Modelled from the spec (§8 Scenario 4 / claim C8): the output of
`adjust` with `smooth = 1` as the spec words it — the input restricted to
the date window, Sundays nulled, nulls replaced by zero and every value
truncated to an integer, with no averaging across dates. -/
def adjustSpecNoSmoothing (df : DF) (date days today : ℤ) : DFZ :=
  ⟨df.names,
    (maskSunday (keptRows df.rows (lowerBound date days) (upperBound today date days))).map
      (fun r => (r.1, r.2.map finishCell))⟩

/-- Modelled from the spec (§8 / claim C4): the non-null values strictly
preceding row `i` inside the trailing window of size `smooth`, in
column `j` of the Sunday-masked restricted frame. -/
def precedingWindowVals (rows : Rows) (smooth i j : ℕ) : List ℚ :=
  (((colOf (maskSunday rows) j).take i).drop (i + 1 - smooth)).filterMap id

/-- Modelled from the spec (claim C4): the value the spec says a Sunday
row carries — the trailing rolling mean of the preceding non-null values
(zero when there are none), truncated to an integer. -/
def sundaySpecVal (rows : Rows) (smooth i j : ℕ) : ℤ :=
  truncQ ((meanOfWindow (precedingWindowVals rows smooth i j)).getD 0)

/-- Membership of a cell value in the unit interval, the property claimed
for ratio-normalized values; a missing/non-finite cell (`NaN`) does not
lie in `[0, 1]`. -/
def cellInUnit (v : Option ℚ) : Prop :=
  match v with
  | some q => 0 ≤ q ∧ q ≤ 1
  | none => False

instance (v : Option ℚ) : Decidable (cellInUnit v) := by
  unfold cellInUnit; exact match v with
  | some q => instDecidableAnd
  | none => instDecidableFalse

theorem getElem?_some_lt {α : Type} {l : List α} {i : ℕ} {a : α}
    (h : l[i]? = some a) : i < l.length := by
  by_contra hc
  rw [List.getElem?_eq_none (by omega)] at h
  exact Option.noConfusion h

theorem map_id_of_mem {α : Type} {l : List α} {f : α → α}
    (h : ∀ x ∈ l, f x = x) : l.map f = l := by
  induction l with
  | nil => rfl
  | cons a t ih =>
    simp only [List.map_cons, h a (by simp), List.cons.injEq, true_and]
    exact ih (fun x hx => h x (List.mem_cons_of_mem a hx))

theorem windowSlice_one (xs : List (Option ℚ)) (i : ℕ) :
    windowSlice 1 i xs = xs[i]?.toList := by
  unfold windowSlice
  rcases lt_or_ge i xs.length with h | h
  · rw [List.take_succ, Nat.add_sub_cancel,
      List.drop_append_of_le_length (by simp [List.length_take]; omega)]
    simp [List.drop_eq_nil_of_le, List.length_take, Nat.min_le_left]
  · rw [List.take_of_length_le (by omega), Nat.add_sub_cancel,
      List.drop_eq_nil_of_le (by omega), List.getElem?_eq_none (by omega)]
    rfl

theorem mean_singleton (x : ℚ) : meanOfWindow [x] = some x := by
  simp [meanOfWindow]

theorem rollingRows_one (rows : Rows) : rollingRows 1 rows = rows := by
  apply List.ext_getElem?
  intro i
  simp only [rollingRows, List.getElem?_map, List.getElem?_enum]
  cases hrow : rows[i]? with
  | none => rfl
  | some r =>
    simp only [Option.map_some']
    congr 1
    have hi : i < rows.length := getElem?_some_lt hrow
    refine Prod.ext rfl ?_
    apply List.ext_getElem?
    intro j
    simp only [List.getElem?_map]
    rcases lt_or_ge j r.2.length with hj | hj
    · rw [List.getElem?_range hj, List.getElem?_eq_getElem hj]
      simp only [Option.map_some']
      have hcol : (colOf rows j)[i]? = some (r.2.getD j none) := by
        simp [colOf, List.getElem?_map, hrow]
      rw [windowSlice_one, hcol, List.getD_eq_getElem r.2 none hj]
      cases hc : r.2[j] with
      | none => simp [meanOfWindow]
      | some x => simp [mean_singleton]
    · rw [List.getElem?_eq_none (by simpa using hj), List.getElem?_eq_none (by omega)]
      rfl

theorem map_fst_maskSunday (rows : Rows) :
    (maskSunday rows).map Prod.fst = rows.map Prod.fst := by
  unfold maskSunday
  rw [List.map_map]
  apply List.map_congr_left
  intro r _
  by_cases h : dayofweek r.1 = 6 <;> simp [h]

theorem map_fst_rollingRows (w : ℕ) (rows : Rows) :
    (rollingRows w rows).map Prod.fst = rows.map Prod.fst := by
  unfold rollingRows
  rw [List.map_map]
  have h1 : (rows.enum.map fun p : ℕ × (ℤ × List (Option ℚ)) => p.2.1)
      = (rows.enum.map Prod.snd).map Prod.fst := by
    rw [List.map_map]; rfl
  calc (rows.enum.map (Prod.fst ∘ fun p =>
          (p.2.1, (List.range p.2.2.length).map (fun j =>
            meanOfWindow ((windowSlice w p.1 (colOf rows j)).filterMap id)))))
      = rows.enum.map fun p => p.2.1 := List.map_congr_left (fun p _ => rfl)
    _ = (rows.enum.map Prod.snd).map Prod.fst := h1
    _ = rows.map Prod.fst := by rw [List.enum_map_snd]

theorem map_fst_adjust (df : DF) (date days : ℤ) (smooth : ℕ) (today : ℤ) :
    (adjust df date days smooth today).rows.map Prod.fst
      = (keptRows df.rows (lowerBound date days) (upperBound today date days)).map Prod.fst := by
  simp only [adjust]
  rw [List.map_map]
  calc ((rollingRows smooth (maskSunday (keptRows df.rows (lowerBound date days)
          (upperBound today date days)))).map
            (Prod.fst ∘ fun r : ℤ × List (Option ℚ) => (r.1, r.2.map finishCell)))
      = (rollingRows smooth (maskSunday (keptRows df.rows (lowerBound date days)
          (upperBound today date days)))).map Prod.fst :=
        List.map_congr_left (fun r _ => rfl)
    _ = _ := by rw [map_fst_rollingRows, map_fst_maskSunday]

theorem applyMask_map (rows : Rows) (f : ℤ × List (Option ℚ) → Bool) :
    applyMask (rows.map f) rows = rows.filter f := by
  induction rows with
  | nil => rfl
  | cons a t ih =>
    unfold applyMask at ih ⊢
    simp only [List.map_cons, List.zip_cons_cons, List.filter_cons]
    cases h : f a
    · simp only [h, Bool.false_eq_true, if_false]
      exact ih
    · simp only [h, if_true, List.map_cons]
      rw [ih]

theorem windowSlice_filterMap_of_last_none (col : List (Option ℚ)) (i w : ℕ)
    (hw : 1 ≤ w) (hcol : col[i]? = some none) :
    (windowSlice w i col).filterMap id = ((col.take i).drop (i + 1 - w)).filterMap id := by
  have hi : i < col.length := getElem?_some_lt hcol
  unfold windowSlice
  rw [List.take_succ, hcol,
    List.drop_append_of_le_length (by simp [List.length_take]; omega),
    List.filterMap_append]
  simp

theorem fillnaDF_eq_self (df : DF) (h : ∀ r ∈ df.rows, ∀ v ∈ r.2, v ≠ none) :
    fillnaDF df = df := by
  unfold fillnaDF
  cases df with
  | mk names rows =>
    simp only [DF.mk.injEq, true_and]
    apply map_id_of_mem
    intro r hr
    cases r with
    | mk d cells =>
      simp only [Prod.mk.injEq, true_and]
      apply map_id_of_mem
      intro v hv
      cases v with
      | none => exact absurd rfl (h (d, cells) hr none hv)
      | some x => rfl

theorem sortIndexDF_eq_self (df : DF)
    (h : List.Sorted (fun a b : ℤ × List (Option ℚ) => a.1 ≤ b.1) df.rows) :
    sortIndexDF df = df := by
  unfold sortIndexDF
  cases df with
  | mk names rows =>
    simp only [DF.mk.injEq, true_and]
    exact List.Sorted.insertionSort_eq h

/-- Modelled from the claim C10: the raw fetch path — the adapter result
filled and sorted, with no division anywhere in its definition; failures
degrade to the empty frame exactly when they surface as `AttributeError`. -/
def rawFetch (a : AdapterOutcome) : Except PErr DF :=
  match a with
  | .frame df => .ok (sortIndexDF (fillnaDF df))
  | .nonFrame => .ok emptyDF
  | .raised e => if e = PErr.attributeError then .ok emptyDF else .error e

/-- Concrete one-row frame dated 2021-08-11 minus some days — epoch day
18850 (a Wednesday), which lies between the two candidate lower bounds of
claim C1 for mid 19000 and period 100. -/
def dfC1 : DF := ⟨["a"], [(18850, [some 5])]⟩

/-- C1 (amended): for every input series, mid date, period size, smoothing
window and clock reading, every date in the output of `adjust` lies within
`[lower, upper]` inclusive, where `lower = min(2021-07-01, mid −
(period_size + min_days) days)` — the source computes a `min` at line 76,
not the `max` the claim states — and `upper = min(today, mid +
(period_size − 1) days)`. -/
theorem adjust_dates_within_code_bounds (df : DF) (date days : ℤ) (smooth : ℕ)
    (today : ℤ) (r : ℤ × List ℤ)
    (hr : r ∈ (adjust df date days smooth today).rows) :
    lowerBound date days ≤ r.1 ∧ r.1 ≤ upperBound today date days := by
  have h1 : r.1 ∈ (adjust df date days smooth today).rows.map Prod.fst :=
    List.mem_map_of_mem Prod.fst hr
  rw [map_fst_adjust] at h1
  obtain ⟨q, hq, hq1⟩ := List.mem_map.1 h1
  have h2 := (List.mem_filter.1 hq).2
  rw [← hq1]
  simpa using h2

/-- C1 counterexample: with mid 19000, period 100, smoothing 1 and clock
19500, `adjust` keeps the date 18850, which is strictly below the lower
bound `max(2021-07-01, mid − (period_size + min_days) days) = 18897`
claimed by the spec (the source clamps with `min`, not `max`). -/
theorem adjust_c1_spec_lower_bound_fails :
    ((adjust dfC1 19000 100 1 19500).rows.map Prod.fst) = [18850] ∧
    ¬ (max d20210701 (19000 - (100 + min_days)) ≤ 18850) := by
  constructor
  · rw [map_fst_adjust]
    decide
  · decide

/-- Witness for `adjust_dates_within_code_bounds` at the concrete input
`dfC1`, mid 19000, period 100, smoothing 1, clock 19500, output row
`(18850, [5])`. -/
theorem adjust_dates_within_code_bounds_witness :
    lowerBound 19000 100 ≤ 18850 ∧ (18850:ℤ) ≤ upperBound 19500 19000 100 :=
  adjust_dates_within_code_bounds dfC1 19000 100 1 19500 (18850, [5]) (by
    have h : (adjust dfC1 19000 100 1 19500).rows = [(18850, [5])] := by
      norm_num [adjust, dfC1, keptRows, lowerBound, upperBound, d20210701, min_days,
        maskSunday, dayofweek, rollingRows, List.enum, List.enumFrom, windowSlice,
        colOf, meanOfWindow, finishCell, truncQ, List.filterMap_cons, id_eq,
        List.range_succ, List.range_zero, List.getElem?_cons_zero, Function.comp_def]
      simp
    rw [h]
    exact List.mem_singleton.2 rfl)

/-- Concrete one-row frame dated epoch day 19000 (a Saturday), used to
exhibit the dependence of `adjust` on the ambient clock. -/
def dfA : DF := ⟨["a"], [(19000, [some 5])]⟩

/-- C7 counterexample: `adjust` reads the ambient clock
(`pd.Timestamp.today()`, line 77).  Two calls with identical Python
arguments (`dfA`, mid 19000, period 3, smoothing 1) made at clock
readings 18990 and 19500 return different outputs: the first drops the
row dated 19000 (it lies beyond the upper clamp), the second keeps it. -/
theorem adjust_c7_depends_on_clock :
    (adjust dfA 19000 3 1 18990).rows.length = 0 ∧
    (adjust dfA 19000 3 1 19500).rows.length = 1 ∧
    adjust dfA 19000 3 1 18990 ≠ adjust dfA 19000 3 1 19500 := by
  have h1 : (adjust dfA 19000 3 1 18990).rows.length = 0 := by decide
  have h2 : (adjust dfA 19000 3 1 19500).rows.length = 1 := by decide
  refine ⟨h1, h2, fun h => ?_⟩
  rw [h, h2] at h1
  exact absurd h1 (by decide)

/-- C7 (amended): `adjust` is deterministic once the clock reading is
fixed, and it depends on the clock only through the upper clamp
`min(today, mid + (period − 1))`: two calls with identical arguments
whose clock readings produce the same upper bound give identical
output. -/
theorem adjust_deterministic_given_clock (df : DF) (date days : ℤ) (smooth : ℕ)
    (t₁ t₂ : ℤ) (h : upperBound t₁ date days = upperBound t₂ date days) :
    adjust df date days smooth t₁ = adjust df date days smooth t₂ := by
  unfold adjust
  rw [h]

/-- Witness for `adjust_deterministic_given_clock`: clock readings 19500
and 19600 both clamp to 19002 for mid 19000 and period 3, so the two
calls agree. -/
theorem adjust_deterministic_given_clock_witness :
    adjust dfA 19000 3 1 19500 = adjust dfA 19000 3 1 19600 :=
  adjust_deterministic_given_clock dfA 19000 3 1 19500 19600 (by decide)

/-- C8: with smoothing window 1 the output of `adjust` equals the input
restricted to the date window with every Sunday row nulled, nulls
replaced by zero and every value truncated toward zero — no averaging
across dates (rolling with window 1 is the identity). -/
theorem adjust_smooth_one_no_averaging (df : DF) (date days today : ℤ) :
    adjust df date days 1 today = adjustSpecNoSmoothing df date days today := by
  simp only [adjust, adjustSpecNoSmoothing, rollingRows_one]

/-- C9: `adjust` never mutates its input.  Running the body as explicit
state passing over the two heap objects (`df` and the deep copy `res`),
the object `df` refers to after the call is unchanged, and the returned
value is the functional `adjust`. -/
theorem adjust_does_not_mutate_input (df : DF) (date days : ℤ) (smooth : ℕ)
    (today : ℤ) :
    (adjustProgram df date days smooth today).1 = df ∧
    (adjustProgram df date days smooth today).2 = adjust df date days smooth today := by
  constructor
  · rfl
  · simp only [adjustProgram, lineCopy, lineSlice, lineSunday, lineRolling, adjust, keptRows]
    rw [applyMask_map]

theorem getD_map_const_none (vs : List (Option ℚ)) (j : ℕ) :
    (vs.map (fun _ => (none : Option ℚ))).getD j none = none := by
  rcases lt_or_ge j vs.length with h | h
  · rw [List.getD_eq_getElem _ _ (by simpa using h)]
    simp
  · rw [List.getD_eq_default _ _ (by simpa using h)]

/-- C4: for every input series and every smoothing window ≥ 1, the value
`adjust` puts on a Sunday row is the trailing rolling mean of the
non-null values strictly preceding it inside the window (zero-filled when
there are none, truncated to an integer) — the raw count recorded for
that Sunday is nulled at line 80 before the rolling mean of line 81 runs,
so it never contributes. -/
theorem adjust_sunday_is_mean_of_preceding (df : DF) (date days today : ℤ)
    (smooth : ℕ) (hs : 1 ≤ smooth) (i j : ℕ) (di : ℤ) (vs : List (Option ℚ))
    (hrow : (keptRows df.rows (lowerBound date days) (upperBound today date days))[i]?
      = some (di, vs))
    (hsun : dayofweek di = 6) (hj : j < vs.length) :
    cellZ (adjust df date days smooth today) i j
      = some (sundaySpecVal
          (keptRows df.rows (lowerBound date days) (upperBound today date days))
          smooth i j) := by
  have hmask : (maskSunday (keptRows df.rows (lowerBound date days)
      (upperBound today date days)))[i]?
      = some (di, vs.map (fun _ => (none : Option ℚ))) := by
    simp [maskSunday, List.getElem?_map, hrow, hsun]
  have hcol : (colOf (maskSunday (keptRows df.rows (lowerBound date days)
      (upperBound today date days))) j)[i]? = some none := by
    simp [colOf, List.getElem?_map, hmask, getD_map_const_none]
  have hroll : (rollingRows smooth (maskSunday (keptRows df.rows (lowerBound date days)
      (upperBound today date days))))[i]?
      = some (di, (List.range vs.length).map (fun j' =>
          meanOfWindow ((windowSlice smooth i (colOf (maskSunday (keptRows df.rows
            (lowerBound date days) (upperBound today date days))) j')).filterMap id))) := by
    simp [rollingRows, List.getElem?_map, List.getElem?_enum, hmask]
  have hcell : cellZ (adjust df date days smooth today) i j
      = some (finishCell (meanOfWindow ((windowSlice smooth i
          (colOf (maskSunday (keptRows df.rows (lowerBound date days)
            (upperBound today date days))) j)).filterMap id))) := by
    unfold cellZ
    simp only [adjust, List.getElem?_map, hroll, Option.map_some', Option.some_bind]
    rw [List.getElem?_range hj]
    rfl
  rw [hcell, windowSlice_filterMap_of_last_none _ _ _ hs hcol]
  rfl

/-- Two-row frame: Saturday 2021-07-03 (epoch 18811) with count 4 and
Sunday 2021-07-04 (epoch 18812) with raw count 10, for the Sunday
smoothing witness. -/
def dfC4 : DF := ⟨["a"], [(18811, [some 4]), (18812, [some 10])]⟩

/-- Witness for `adjust_sunday_is_mean_of_preceding` at `dfC4`,
mid 18812, period 5, smoothing 7, clock 19000, Sunday row `i = 1`,
column `j = 0`. -/
theorem adjust_sunday_is_mean_of_preceding_witness :
    cellZ (adjust dfC4 18812 5 7 19000) 1 0
      = some (sundaySpecVal
          (keptRows dfC4.rows (lowerBound 18812 5) (upperBound 19000 18812 5)) 7 1 0) :=
  adjust_sunday_is_mean_of_preceding dfC4 18812 5 19000 7 (by decide) 1 0 18812
    [some 10] (by decide) (by decide) (by decide)

/-- C2 counterexample: the pipeline does raise for some inputs.  A zero
smoothing window makes `rolling` raise `ValueError`, which `except
AttributeError` does not catch, and a non-`AttributeError` exception from
the corpus adapter propagates out of `ngram` unchanged. -/
theorem pipeline_c2_can_raise :
    adjustE dfA 19000 3 0 19500 = .error .valueError ∧
    ngramE (.raised .typeError) "" .nonFrame = .error .typeError := by
  constructor
  · rfl
  · rfl

/-- C2 (amended): the degrade-to-empty contract holds exactly for the
`AttributeError` failure class and positive smoothing windows: `adjust`
returns normally whenever `smooth ≥ 1`, and `ngram` returns the empty
frame when the adapter produced a non-frame value or raised
`AttributeError`; other exception kinds propagate (see
`pipeline_c2_can_raise`). -/
theorem pipeline_degrades_to_empty_on_attribute_error (smooth : ℕ) (hs : 1 ≤ smooth)
    (df : DF) (date days today : ℤ) (s : String) (refA : AdapterOutcome) :
    adjustE df date days smooth today = .ok (adjust df date days smooth today) ∧
    ngramE .nonFrame s refA = .ok emptyDF ∧
    ngramE (.raised .attributeError) s refA = .ok emptyDF := by
  refine ⟨?_, rfl, ?_⟩
  · unfold adjustE
    rw [if_neg (by omega)]
  · simp [ngramE]

/-- Witness for `pipeline_degrades_to_empty_on_attribute_error` at
smoothing 1. -/
theorem pipeline_degrades_to_empty_witness :
    adjustE dfA 19000 3 1 19500 = .ok (adjust dfA 19000 3 1 19500) ∧
    ngramE .nonFrame "" .nonFrame = .ok emptyDF ∧
    ngramE (.raised .attributeError) "" .nonFrame = .ok emptyDF :=
  pipeline_degrades_to_empty_on_attribute_error 1 (by decide) dfA 19000 3 19500 "" .nonFrame

/-- C3 counterexample: the export encoder does not run only on the click
event.  On a render whose click count has not increased since the
previous render (both renders see `n_clicks = 1`), the download output is
still a buffer, because line 342 tests only `n_clicks > 0`. -/
theorem export_c3_runs_on_every_render :
    (1 : ℕ) = 1 ∧ update_chartE (some dfA) 19000 3 1 1 19500 ≠ .ok none := by
  refine ⟨rfl, ?_⟩
  simp [update_chartE, adjustE]

/-- C3 (amended): once the download button has ever been clicked
(`n_clicks > 0`), every render with stored data and a valid smoothing
window produces the spreadsheet buffer, regardless of which input
triggered the render — production depends only on the current click
count being positive, not on it having just increased. -/
theorem export_runs_whenever_clicks_positive (df : DF) (date days : ℤ)
    (smooth : ℕ) (n₁ n₂ : ℕ) (today : ℤ)
    (hs : 1 ≤ smooth) (h1 : 0 < n₁) (h2 : 0 < n₂) :
    update_chartE (some df) date days smooth n₁ today
      = .ok (some (adjust df date days smooth today)) ∧
    update_chartE (some df) date days smooth n₁ today
      = update_chartE (some df) date days smooth n₂ today := by
  have e : ∀ n : ℕ, 0 < n → update_chartE (some df) date days smooth n today
      = .ok (some (adjust df date days smooth today)) := by
    intro n hn
    have hsm : smooth ≠ 0 := by omega
    simp [update_chartE, adjustE, hsm, hn]
  exact ⟨e n₁ h1, by rw [e n₁ h1, e n₂ h2]⟩

/-- Witness for `export_runs_whenever_clicks_positive` at `dfA`,
smoothing 1, click counts 1 and 2. -/
theorem export_runs_whenever_clicks_positive_witness :
    update_chartE (some dfA) 19000 3 1 1 19500
      = .ok (some (adjust dfA 19000 3 1 19500)) ∧
    update_chartE (some dfA) 19000 3 1 1 19500
      = update_chartE (some dfA) 19000 3 1 2 19500 :=
  export_runs_whenever_clicks_positive dfA 19000 3 1 1 2 19500
    (by decide) (by decide) (by decide)

/-- Sorted two-row frame with no missing values, a raw series in the
sense of the data model. -/
def dfC5 : DF := ⟨["a"], [(1, [some 2]), (3, [some 4])]⟩

/-- C5: `ngram` with an empty comparison list (`sammenlign = ""`) skips
the division branch and returns the raw counts unchanged: for a raw
series — no missing cells, date index already sorted ascending — the
`fillna(0)` and `sort_index()` steps are the identity and the output is
the input (values coerced to reals, which the model renders as the
identity). -/
theorem ngram_no_reference_is_identity (df : DF) (refA : AdapterOutcome)
    (hnn : ∀ r ∈ df.rows, ∀ v ∈ r.2, v ≠ none)
    (hsorted : List.Sorted (fun a b : ℤ × List (Option ℚ) => a.1 ≤ b.1) df.rows) :
    ngramE (.frame df) "" refA = .ok df := by
  simp only [ngramE]
  rw [if_neg (by simp)]
  rw [fillnaDF_eq_self df hnn, sortIndexDF_eq_self df hsorted]

/-- Witness for `ngram_no_reference_is_identity` at the concrete raw
series `dfC5`. -/
theorem ngram_no_reference_is_identity_witness :
    ngramE (.frame dfC5) "" .nonFrame = .ok dfC5 :=
  ngram_no_reference_is_identity dfC5 .nonFrame (by decide) (by decide)

/-- C10: the orchestration (`update_data`, line 272) always passes the
empty string as the comparison argument to `ngram`, so the outcome of any
reference fetch is irrelevant and the stored series is exactly the raw
fetch path — fill missing with zero, sort the index, never divide
(`rawFetch` contains no division). -/
theorem update_data_stores_raw_counts (a : AdapterOutcome) (refA : AdapterOutcome) :
    update_data a = ngramE a "" refA ∧ update_data a = rawFetch a := by
  cases a with
  | frame df => exact ⟨rfl, rfl⟩
  | nonFrame => exact ⟨rfl, rfl⟩
  | raised e => exact ⟨rfl, rfl⟩

/-- C6 counterexample: raw count 0 with reference total 0 satisfies the
claim's hypothesis (count ≤ total pointwise), yet the division produces
`0 / 0 = NaN` (modelled `none`), which does not lie in `[0, 1]`. -/
theorem normalize_c6_zero_reference_not_in_unit :
    ngramE (.frame ⟨["a"], [(5, [some 0])]⟩) "," (.frame ⟨["r"], [(5, [some 0])]⟩)
      = .ok ⟨["a"], [(5, [none])]⟩ ∧ ¬ cellInUnit none := by
  constructor
  · norm_num [ngramE, sumwordE, fillnaDF, sortIndexDF, divideDF, sumTot, rowSum,
      lookupTot, divCell, List.insertionSort, List.orderedInsert,
      List.filterMap_cons, id_eq, List.find?]
    intro hc
    exact absurd hc (by decide)
  · simp [cellInUnit]

/-- C6 (amended): the ratio normalization of `ngram` produces values in
`[0, 1]` when, at every date of the raw series, a reference total exists,
is strictly positive, and bounds every word's count from above (the raw
counts themselves being non-negative).  Without `0 < t` the division can
produce `NaN` (see `normalize_c6_zero_reference_not_in_unit`). -/
theorem normalize_reference_ratio_in_unit (raw ref : DF) (s : String) (hs : s ≠ "")
    (h : ∀ r ∈ raw.rows, ∃ t, lookupTot (sumTot ref) r.1 = some t ∧ 0 < t ∧
      ∀ v ∈ r.2, ∀ q : ℚ, v = some q → 0 ≤ q ∧ q ≤ t)
    (df' : DF) (heq : ngramE (.frame raw) s (.frame ref) = .ok df')
    (r : ℤ × List (Option ℚ)) (hr : r ∈ df'.rows)
    (v : Option ℚ) (hv : v ∈ r.2) :
    cellInUnit v := by
  have hdf : divideDF (sortIndexDF (fillnaDF raw)) (sumTot ref) = df' := by
    simp only [ngramE] at heq
    rw [if_pos hs] at heq
    simp only [sumwordE] at heq
    exact Except.ok.inj heq
  subst hdf
  simp only [divideDF] at hr
  obtain ⟨r', hr', hrr⟩ := List.mem_map.1 hr
  have hr'' : r' ∈ (fillnaDF raw).rows := by
    have hperm := List.perm_insertionSort
      (fun a b : ℤ × List (Option ℚ) => a.1 ≤ b.1) (fillnaDF raw).rows
    exact hperm.mem_iff.1 (by simpa [sortIndexDF] using hr')
  simp only [fillnaDF] at hr''
  obtain ⟨r₀, h₀, hfill⟩ := List.mem_map.1 hr''
  obtain ⟨t, hlook, htpos, hcells⟩ := h r₀ h₀
  subst hrr
  subst hfill
  obtain ⟨v₀, hv₀, hvv⟩ := List.mem_map.1 (by simpa using hv)
  have hx : 0 ≤ v₀.getD 0 ∧ v₀.getD 0 ≤ t := by
    cases v₀ with
    | none => exact ⟨le_refl 0, le_of_lt htpos⟩
    | some q => simpa using hcells (some q) hv₀ q rfl
  subst hvv
  simp only [divCell, hlook]
  rw [if_neg (ne_of_gt htpos)]
  exact ⟨div_nonneg hx.1 (le_of_lt htpos), (div_le_one htpos).2 hx.2⟩

/-- Raw series for the ratio witness: count 1 on epoch day 5. -/
def dfC6raw : DF := ⟨["a"], [(5, [some 1])]⟩

/-- Reference series for the ratio witness: total 2 on epoch day 5. -/
def dfC6ref : DF := ⟨["r"], [(5, [some 2])]⟩

/-- Witness for `normalize_reference_ratio_in_unit`: with raw count 1 and
positive reference total 2 at the same date, the divided cell 1/2 lies in
the unit interval. -/
theorem normalize_reference_ratio_in_unit_witness :
    cellInUnit (some ((1:ℚ)/2)) := by
  have hrows : (divideDF (sortIndexDF (fillnaDF dfC6raw)) (sumTot dfC6ref)).rows
      = [(5, [some ((1:ℚ)/2)])] := by
    norm_num [divideDF, sortIndexDF, fillnaDF, sumTot, rowSum, lookupTot, divCell,
      dfC6raw, dfC6ref, List.insertionSort, List.orderedInsert,
      List.filterMap_cons, id_eq, List.find?]
  exact normalize_reference_ratio_in_unit dfC6raw dfC6ref "," (by decide)
    (by
      intro r hr
      have hr5 : r = ((5:ℤ), [some (1:ℚ)]) := by simpa [dfC6raw] using hr
      subst hr5
      refine ⟨2, ?_, by norm_num, ?_⟩
      · norm_num [lookupTot, sumTot, dfC6ref, rowSum, List.find?,
          List.filterMap_cons, id_eq]
      · intro v hv q hq
        have hv1 : v = some (1:ℚ) := by simpa using hv
        subst hv1
        rw [← Option.some.inj hq]
        constructor <;> norm_num)
    (divideDF (sortIndexDF (fillnaDF dfC6raw)) (sumTot dfC6ref)) rfl
    ((5 : ℤ), [some ((1:ℚ)/2)]) (by rw [hrows]; exact List.mem_singleton.2 rfl)
    (some ((1:ℚ)/2)) (List.mem_singleton.2 rfl)
